import Mathlib

/-!
Shallow embedding of `src/main.py` (BusTimeETLA): a single-invocation
incident-report handler.  Python dictionaries are modelled as ordered
association lists over `String` keys, Python values as the inductive
`PyVal`, machine integers as `Int` (Python ints are unbounded, so no
modular wrap is needed), and Python exceptions as `Except String`.

External collaborators (S3 `put_object`, DynamoDB `put_item`) are modelled
by a context `Ctx` that decides whether each call raises, and the handler
returns, besides the HTTP-style response, the archived object and the
persisted item (if the corresponding call was reached and succeeded).

Faithfulness notes:
* the source regexes are the raw strings `r"(\\d+)[-–](\\d+)"` and
  `r"(\\d+)"`: inside a raw string `\\` is a literal backslash, so the
  regex matches a literal backslash followed by letter `d`s, NOT digits.
  The embedding models exactly that.
* `json` module behaviour is modelled for the fragment without floats
  (a numeric literal containing `.`, `e` or `E` makes the model reject
  the document); exception message texts for parse errors are modelled
  by fixed descriptive strings, since no verified claim depends on them.
-/

/-- A Python runtime value, restricted to the JSON-expressible fragment
that flows through this program (floats excluded). -/
inductive PyVal where
  | none
  | bool (b : Bool)
  | int (n : Int)
  | str (s : String)
  | list (xs : List PyVal)
  | dict (ps : List (String × PyVal))
deriving Repr

/-- Python type name, as used in exception messages. -/
def pyTypeName : PyVal → String
  | .none => "NoneType"
  | .bool _ => "bool"
  | .int _ => "int"
  | .str _ => "str"
  | .list _ => "list"
  | .dict _ => "dict"

/-- Python truthiness (`bool(v)`), as tested by `if not delay_str`. -/
def pyTruthy : PyVal → Bool
  | .none => false
  | .bool b => b
  | .int n => n != 0
  | .str s => s != ""
  | .list xs => !xs.isEmpty
  | .dict ps => !ps.isEmpty

/-- ASCII whitespace stripped by `str.strip()` and by `int(str)`. -/
def isPyWs (c : Char) : Bool :=
  c = ' ' || c = Char.ofNat 9 || c = Char.ofNat 10 ||
  c = Char.ofNat 13 || c = Char.ofNat 11 || c = Char.ofNat 12

/-- Drop ASCII whitespace from both ends of a character list. -/
def pyStripChars (l : List Char) : List Char :=
  ((l.dropWhile isPyWs).reverse.dropWhile isPyWs).reverse

/-- Python `str.strip()`: drop whitespace from both ends. -/
def pyStrip (s : String) : String := String.mk (pyStripChars s.data)

/-- Python `str.lower()` (ASCII range, which covers all program inputs). -/
def pyLower (s : String) : String := String.mk (s.data.map Char.toLower)

/-- Does `needle` occur at the head of `hay`? -/
def listStartsWith : List Char → List Char → Bool
  | [], _ => true
  | _ :: _, [] => false
  | a :: as, b :: bs => a = b && listStartsWith as bs

/-- Does `needle` occur anywhere in `hay`?  Models Python `needle in hay`
for strings. -/
def listContainsSub (needle : List Char) : List Char → Bool
  | [] => needle.isEmpty
  | c :: rest => listStartsWith needle (c :: rest) || listContainsSub needle rest

/-- Python `sub in s` on strings. -/
def pyContains (s sub : String) : Bool := listContainsSub sub.data s.data

/-- First-match association-list lookup over string keys: Python dict
lookup (dicts built by this model never repeat a key). -/
def alookup {β : Type} : List (String × β) → String → Option β
  | [], _ => Option.none
  | p :: ps, k => if p.1 = k then some p.2 else alookup ps k

/-- Backslash character (the regexes of the source match it literally). -/
def bslash : Char := Char.ofNat 92

/-- En-dash, the second separator admitted by the range regex. -/
def enDash : Char := Char.ofNat 8211

/-- Length of the leading run of letter `d`s (what `\\d+` in a raw string
actually matches: one or more literal `d` characters). -/
def countDs (cs : List Char) : Nat := (cs.takeWhile (fun c => c = 'd')).length

/-- The text captured by group `(\\d+)`: a backslash then `k` letter `d`s. -/
def dGroup (k : Nat) : String := String.mk (bslash :: List.replicate k 'd')

/-- Model of `re.match(r"(\\d+)", s)`: anchored at the start, the pattern
is a literal backslash followed by one or more letter `d`s; returns the
text of group 1. -/
def matchSingle : List Char → Option String
  | [] => Option.none
  | c :: rest =>
    if c = bslash then
      if countDs rest = 0 then Option.none else some (dGroup (countDs rest))
    else Option.none

/-- Model of `re.match(r"(\\d+)[-–](\\d+)", s)`: backslash, `d`s, a hyphen
or en-dash, backslash, `d`s; returns the texts of groups 1 and 2.  The
`d+` atoms only match `d`, so greedy matching needs no backtracking. -/
def matchRange : List Char → Option (String × String)
  | [] => Option.none
  | c :: rest =>
    if c = bslash then
      if countDs rest = 0 then Option.none else
      match rest.drop (countDs rest) with
      | sep :: rest2 =>
        if sep = '-' || sep = enDash then
          match rest2 with
          | b2 :: rest3 =>
            if b2 = bslash then
              if countDs rest3 = 0 then Option.none
              else some (dGroup (countDs rest), dGroup (countDs rest3))
            else Option.none
          | [] => Option.none
        else Option.none
      | [] => Option.none
    else Option.none

/-- Leading decimal digits to a natural number, if the list is nonempty
and all digits. -/
def digitsToNat (cs : List Char) : Option Nat :=
  if cs.isEmpty then Option.none
  else if cs.all Char.isDigit then
    some (cs.foldl (fun a c => a * 10 + (c.toNat - 48)) 0)
  else Option.none

/-- Python `int(s)` for a string: strip whitespace, optional sign, then
decimal digits; anything else raises `ValueError` (here: `none`). -/
def pyIntOfChars : List Char → Option Int
  | [] => Option.none
  | c :: rest =>
    if c = '-' then (digitsToNat rest).map (fun n => -(n : Int))
    else if c = '+' then (digitsToNat rest).map (fun n => (n : Int))
    else (digitsToNat (c :: rest)).map (fun n => (n : Int))

def pyIntOfString (s : String) : Option Int := pyIntOfChars (pyStripChars s.data)

/-- Embedding of `parse_delay` (src/main.py lines 27-43).  The argument is
whatever `body.get("How Long Delayed", "")` produced, so it can be any
value; a truthy non-string raises `AttributeError` at `.lower()`. -/
def parse_delay (delay_str : PyVal) : Except String Int :=
  if pyTruthy delay_str = false then .ok 0
  else
    match delay_str with
    | .str s =>
      if pyContains (pyStrip (pyLower s)) "hour" then .ok 60
      else
        match matchRange (pyStrip (pyLower s)).data, matchSingle (pyStrip (pyLower s)).data with
        | some (g1, g2), _ =>
          match pyIntOfString g1, pyIntOfString g2 with
          | some mn, some mx => .ok (Int.fdiv (mn + mx) 2)
          | _, _ => .error "ValueError: invalid literal for int() with base 10"
        | Option.none, some g =>
          match pyIntOfString g with
          | some n => .ok n
          | Option.none => .error "ValueError: invalid literal for int() with base 10"
        | Option.none, Option.none => .ok 0
    | v => .error ("AttributeError: " ++ pyTypeName v ++ " object has no attribute lower")

/-- Apostrophe character (kept out of string literals). -/
def apos : Char := Char.ofNat 39

/-- The reason string containing an apostrophe. -/
def wontStart : String := "Won" ++ String.mk [apos] ++ "t Start"

/-- Embedding of `ALERT_PRIORITY_MAP` (src/main.py lines 15-25), as an
ordered association list, insertion order preserved. -/
def ALERT_PRIORITY_MAP : List (String × String) :=
  [("Mechanical Problem", "high"),
   ("Flat Tire", "high"),
   (wontStart, "high"),
   ("Accident", "high"),
   ("Heavy Traffic", "medium"),
   ("Weather Conditions", "medium"),
   ("Delayed by School", "low"),
   ("Other", "low"),
   ("Problem Run", "low")]

/-- The priority function of the spec for a string reason:
`ALERT_PRIORITY_MAP.get(reason, "low")`. -/
def priorityOfStr (s : String) : String :=
  (alookup ALERT_PRIORITY_MAP s).getD "low"

/-- Model of `ALERT_PRIORITY_MAP.get(reason, "low")` for an arbitrary value: string
keys are looked up, other hashable values miss (default `"low"`), and
unhashable values (`list`, `dict`) raise `TypeError`. -/
def alertPriorityGet : PyVal → Except String String
  | .str s => .ok (priorityOfStr s)
  | .list _ => .error "TypeError: unhashable type: list"
  | .dict _ => .error "TypeError: unhashable type: dict"
  | _ => .ok "low"

/-- Double-quote character. -/
def dquote : Char := Char.ofNat 34

/-- Left brace character. -/
def lbrace : Char := Char.ofNat 123

/-- Right brace character. -/
def rbrace : Char := Char.ofNat 125

/-- Lowercase hex digit, as emitted by `json.dumps` in `\uXXXX` escapes. -/
def hexDigit (n : Nat) : Char :=
  if n < 10 then Char.ofNat (48 + n) else Char.ofNat (97 + (n - 10))

/-- Four hex digits of a code unit below 0x10000. -/
def hex4 (n : Nat) : List Char :=
  [hexDigit (n / 4096 % 16), hexDigit (n / 256 % 16), hexDigit (n / 16 % 16), hexDigit (n % 16)]

/-- One character of `json.dumps` output with `ensure_ascii=True`: quote and
backslash get short escapes, control characters get their short escapes or
`\uXXXX`, and every non-ASCII character is `\uXXXX`-escaped (a code point
above 0xFFFF as a surrogate pair). -/
def escChar (c : Char) : List Char :=
  if c = dquote then [bslash, dquote]
  else if c = bslash then [bslash, bslash]
  else if c = Char.ofNat 10 then [bslash, 'n']
  else if c = Char.ofNat 13 then [bslash, 'r']
  else if c = Char.ofNat 9 then [bslash, 't']
  else if c = Char.ofNat 8 then [bslash, 'b']
  else if c = Char.ofNat 12 then [bslash, 'f']
  else if c.toNat < 32 || c.toNat > 126 then
    if c.toNat < 65536 then bslash :: 'u' :: hex4 c.toNat
    else
      let v := c.toNat - 65536
      (bslash :: 'u' :: hex4 (55296 + v / 1024)) ++ (bslash :: 'u' :: hex4 (56320 + v % 1024))
  else [c]

/-- Python `json.dumps` of a string. -/
def dumpsString (s : String) : String :=
  String.mk (dquote :: ((s.data.map escChar).flatten ++ [dquote]))

mutual
/-- Python `json.dumps(v)` with the default options: separators are a comma plus
space between items and a colon plus space after keys. -/
def pyJsonDumps : PyVal → String
  | .none => "null"
  | .bool true => "true"
  | .bool false => "false"
  | .int n => toString n
  | .str s => dumpsString s
  | .list xs => "[" ++ dumpsElems xs ++ "]"
  | .dict ps => "\x7b" ++ dumpsPairs ps ++ "\x7d"

/-- Comma-space separated list elements. -/
def dumpsElems : List PyVal → String
  | [] => ""
  | [x] => pyJsonDumps x
  | x :: y :: xs => pyJsonDumps x ++ ", " ++ dumpsElems (y :: xs)

/-- Comma-space separated `"key": value` pairs. -/
def dumpsPairs : List (String × PyVal) → String
  | [] => ""
  | [(k, v)] => dumpsString k ++ ": " ++ pyJsonDumps v
  | (k, v) :: p :: ps => dumpsString k ++ ": " ++ pyJsonDumps v ++ ", " ++ dumpsPairs (p :: ps)
end

/-- Python dict item assignment on an association list: an existing key
keeps its position and gets the new value, a new key is appended. -/
def pyPairsInsert (ps : List (String × PyVal)) (k : String) (v : PyVal) :
    List (String × PyVal) :=
  if (alookup ps k).isSome then ps.map (fun p => if p.1 = k then (k, v) else p)
  else ps ++ [(k, v)]

/-- One step of building a dict from a stream of pairs: assign `p` into
the accumulated dict. -/
def dictStep (acc : List (String × PyVal)) (p : String × PyVal) : List (String × PyVal) :=
  pyPairsInsert acc p.1 p.2

/-- Build a Python dict from parsed JSON object members in order: later
duplicate keys overwrite earlier ones in place, as `json.loads` does. -/
def pyDictify (ms : List (String × PyVal)) : List (String × PyVal) :=
  ms.foldl dictStep []

/-- JSON document whitespace. -/
def jsonWs (c : Char) : Bool :=
  c = ' ' || c = Char.ofNat 9 || c = Char.ofNat 10 || c = Char.ofNat 13

/-- Drop leading JSON whitespace. -/
def skipWs (cs : List Char) : List Char := cs.dropWhile jsonWs

/-- Value of a hex digit character. -/
def hexVal (c : Char) : Option Nat :=
  if 48 ≤ c.toNat ∧ c.toNat ≤ 57 then some (c.toNat - 48)
  else if 97 ≤ c.toNat ∧ c.toNat ≤ 102 then some (c.toNat - 87)
  else if 65 ≤ c.toNat ∧ c.toNat ≤ 70 then some (c.toNat - 55)
  else Option.none

/-- Short escapes accepted after a backslash in a JSON string. -/
def unescapeChar (c : Char) : Option Char :=
  if c = dquote then some dquote
  else if c = bslash then some bslash
  else if c = '/' then some '/'
  else if c = 'n' then some (Char.ofNat 10)
  else if c = 't' then some (Char.ofNat 9)
  else if c = 'r' then some (Char.ofNat 13)
  else if c = 'b' then some (Char.ofNat 8)
  else if c = 'f' then some (Char.ofNat 12)
  else Option.none

/-- Parse a JSON string after its opening quote, accumulating characters in
reverse.  Unescaped control characters are rejected (strict mode); `\uXXXX`
escapes for surrogate code units are not modelled (no claim uses them). -/
def parseStringBody : List Char → List Char → Option (String × List Char)
  | [], _ => Option.none
  | c :: rest, acc =>
    if c = dquote then some (String.mk acc.reverse, rest)
    else if c = bslash then
      match rest with
      | 'u' :: h1 :: h2 :: h3 :: h4 :: rest2 =>
        match hexVal h1, hexVal h2, hexVal h3, hexVal h4 with
        | some a, some b, some c2, some d =>
          let n := ((a * 16 + b) * 16 + c2) * 16 + d
          if 55296 ≤ n ∧ n ≤ 57343 then Option.none
          else parseStringBody rest2 (Char.ofNat n :: acc)
        | _, _, _, _ => Option.none
      | e :: rest2 =>
        match unescapeChar e with
        | some ch => parseStringBody rest2 (ch :: acc)
        | Option.none => Option.none
      | [] => Option.none
    else if c.toNat < 32 then Option.none
    else parseStringBody rest (c :: acc)

/-- Leading digit run and the remainder. -/
def takeDigits (cs : List Char) : List Char × List Char :=
  (cs.takeWhile Char.isDigit, cs.dropWhile Char.isDigit)

/-- Digit characters to a natural number. -/
def digitsVal (ds : List Char) : Nat :=
  ds.foldl (fun a c => a * 10 + (c.toNat - 48)) 0

/-- Parse a JSON integer literal: optional minus sign, digits, no leading
zeros.  A following `.`, `e` or `E` would make it a float, which this
model does not cover (the model rejects the document there). -/
def parseIntToken (cs : List Char) : Option (Int × List Char) :=
  let (neg, cs1) := match cs with | '-' :: r => (true, r) | _ => (false, cs)
  let (ds, cs2) := takeDigits cs1
  match ds with
  | [] => Option.none
  | d0 :: drest =>
    if d0 = '0' ∧ drest ≠ [] then Option.none
    else
      let keep : Bool :=
        match cs2 with
        | c :: _ => !(c = '.' || c = 'e' || c = 'E')
        | [] => true
      if keep then
        some ((if neg then -(digitsVal ds : Int) else (digitsVal ds : Int)), cs2)
      else Option.none

mutual
/-- Parse one JSON value (fuel-bounded recursion; the top-level caller
passes enough fuel that exhaustion is unreachable on accepted input). -/
def parseValue : Nat → List Char → Option (PyVal × List Char)
  | 0, _ => Option.none
  | fuel + 1, cs =>
    match skipWs cs with
    | [] => Option.none
    | c :: rest =>
      if c = lbrace then
        match skipWs rest with
        | [] => Option.none
        | d :: rest2 =>
          if d = rbrace then some (.dict [], rest2)
          else
            match parseMembers fuel (d :: rest2) with
            | some (ms, rest3) => some (.dict (pyDictify ms), rest3)
            | Option.none => Option.none
      else if c = '[' then
        match skipWs rest with
        | [] => Option.none
        | d :: rest2 =>
          if d = ']' then some (.list [], rest2)
          else
            match parseElems fuel (d :: rest2) with
            | some (xs, rest3) => some (.list xs, rest3)
            | Option.none => Option.none
      else if c = dquote then
        match parseStringBody rest [] with
        | some (s, rest2) => some (.str s, rest2)
        | Option.none => Option.none
      else if c = 't' then
        match rest with
        | 'r' :: 'u' :: 'e' :: rest2 => some (.bool true, rest2)
        | _ => Option.none
      else if c = 'f' then
        match rest with
        | 'a' :: 'l' :: 's' :: 'e' :: rest2 => some (.bool false, rest2)
        | _ => Option.none
      else if c = 'n' then
        match rest with
        | 'u' :: 'l' :: 'l' :: rest2 => some (.none, rest2)
        | _ => Option.none
      else if c = '-' || c.isDigit then
        match parseIntToken (c :: rest) with
        | some (n, rest2) => some (.int n, rest2)
        | Option.none => Option.none
      else Option.none

/-- Parse one or more `"key": value` members; the raw member list is
dict-ified by the caller. -/
def parseMembers : Nat → List Char → Option (List (String × PyVal) × List Char)
  | 0, _ => Option.none
  | fuel + 1, cs =>
    match skipWs cs with
    | c :: rest =>
      if c = dquote then
        match parseStringBody rest [] with
        | some (k, rest1) =>
          match skipWs rest1 with
          | c1 :: rest2 =>
            if c1 = ':' then
              match parseValue fuel rest2 with
              | some (v, rest3) =>
                match skipWs rest3 with
                | c2 :: rest4 =>
                  if c2 = ',' then
                    match parseMembers fuel rest4 with
                    | some (ms, rest5) => some ((k, v) :: ms, rest5)
                    | Option.none => Option.none
                  else if c2 = rbrace then some ([(k, v)], rest4)
                  else Option.none
                | [] => Option.none
              | Option.none => Option.none
            else Option.none
          | [] => Option.none
        | Option.none => Option.none
      else Option.none
    | [] => Option.none

/-- Parse one or more comma-separated array elements. -/
def parseElems : Nat → List Char → Option (List PyVal × List Char)
  | 0, _ => Option.none
  | fuel + 1, cs =>
    match parseValue fuel cs with
    | some (v, rest) =>
      match skipWs rest with
      | c :: rest1 =>
        if c = ',' then
          match parseElems fuel rest1 with
          | some (xs, rest2) => some (v :: xs, rest2)
          | Option.none => Option.none
        else if c = ']' then some ([v], rest1)
        else Option.none
      | [] => Option.none
    | Option.none => Option.none
end

/-- Python `json.loads` on a string: parse one value, then only whitespace may
remain.  Parse-error message positions are not modelled. -/
def jsonLoadsStr (s : String) : Except String PyVal :=
  match parseValue (s.length + 1) s.data with
  | some (v, rest) =>
    if (skipWs rest).isEmpty then .ok v
    else .error "json.decoder.JSONDecodeError: Extra data"
  | Option.none => .error "json.decoder.JSONDecodeError: Expecting value"

/-- Python `json.loads(v)` for an arbitrary value: non-strings raise `TypeError`. -/
def pyJsonLoads : PyVal → Except String PyVal
  | .str s => jsonLoadsStr s
  | v => .error ("TypeError: the JSON object must be str, bytes or bytearray, not "
      ++ pyTypeName v)

/-- Model of `v[k]` for a string key: dict lookup (`KeyError` when absent), other
types raise `TypeError`. -/
def pyGetItem (v : PyVal) (k : String) : Except String PyVal :=
  match v with
  | .dict ps =>
    match alookup ps k with
    | some x => .ok x
    | Option.none => .error ("KeyError: " ++ k)
  | .list _ => .error "TypeError: list indices must be integers or slices, not str"
  | .str _ => .error "TypeError: string indices must be integers"
  | w => .error ("TypeError: " ++ pyTypeName w ++ " object is not subscriptable")

/-- Model of `v.get(k, dflt)`: only dicts have `.get`; anything else raises
`AttributeError`. -/
def pyGet (v : PyVal) (k : String) (dflt : PyVal) : Except String PyVal :=
  match v with
  | .dict ps => .ok ((alookup ps k).getD dflt)
  | w => .error ("AttributeError: " ++ pyTypeName w ++ " object has no attribute get")

/-- Model of `v[k] = x` for a string key: dicts are updated (position-preserving,
appended when new), other types raise `TypeError`. -/
def pySetItem (v : PyVal) (k : String) (x : PyVal) : Except String PyVal :=
  match v with
  | .dict ps => .ok (.dict (pyPairsInsert ps k x))
  | w => .error ("TypeError: " ++ pyTypeName w ++ " object does not support item assignment")

/-- Python `k in v` for a string `k`: key test on dicts, element test on
lists, substring test on strings; other types raise `TypeError`. -/
def pyIn (k : String) (v : PyVal) : Except String Bool :=
  match v with
  | .dict ps => .ok (alookup ps k).isSome
  | .list xs => .ok (xs.any (fun x => match x with | .str s => s = k | _ => false))
  | .str s => .ok (pyContains s k)
  | w => .error ("TypeError: argument of type " ++ pyTypeName w ++ " is not iterable")

/-- The required fields of `validate_payload` (src/main.py line 46). -/
def required_fields : List String := ["Busbreakdown ID", "Route Number", "Reason"]

/-- The list comprehension `[f for f in required_fields if f not in data]`,
with the `in` test allowed to raise. -/
def missingFields : List String → PyVal → Except String (List String)
  | [], _ => .ok []
  | f :: fs, d =>
    match pyIn f d with
    | .error e => .error e
    | .ok true => missingFields fs d
    | .ok false =>
      match missingFields fs d with
      | .error e => .error e
      | .ok ms => .ok (f :: ms)

/-- Embedding of `validate_payload` (src/main.py lines 45-49). -/
def validate_payload (data : PyVal) : Except String Unit :=
  match missingFields required_fields data with
  | .error e => .error e
  | .ok missing =>
    if missing.isEmpty then .ok ()
    else .error ("Missing required fields: " ++ String.intercalate ", " missing)

/-- The `**body` spread into an already-started dict display:
`{"RouteNumber": ..., "OccurredOn": ..., **body}`. -/
def spreadInto (init : List (String × PyVal)) : PyVal → Except String (List (String × PyVal))
  | .dict ps => .ok (ps.foldl dictStep init)
  | v => .error ("TypeError: " ++ pyTypeName v ++ " is not a mapping")

/-- Environment of one invocation: the two `datetime.utcnow()` readings
(line 59 and line 75 call it separately) and whether each external store
call raises (with which message). -/
structure Ctx where
  now : String
  now2 : String
  s3Fail : Option String
  dbFail : Option String

/-- The HTTP-style response dictionary. -/
structure Response where
  statusCode : Nat
  body : String
deriving Repr, DecidableEq

/-- Observable outcome of one invocation: the response, the S3 object
written by the archive step (key, content, content type), and the
DynamoDB item written by the persist step. -/
structure HandlerOutcome where
  response : Response
  archived : Option (String × String × String)
  persisted : Option (List (String × PyVal))

/-- The 400 response built by the top-level except clause: statusCode
400 and a body that is the dumps of a one-key error dict. -/
def errResp (e : String) : Response :=
  ⟨400, pyJsonDumps (.dict [("error", .str e)])⟩

/-- The 200 response of a fully successful invocation. -/
def okResp : Response :=
  ⟨200, pyJsonDumps (.dict [("message", .str "Processed successfully")])⟩

/-- Embedding of `handler` (src/main.py lines 51-88).  Each `match` arm
ending in `errResp` models the exception propagating to the top-level
`except Exception` clause; effects already performed (the S3 write) are
kept in the outcome. -/
def handler (ctx : Ctx) (event : PyVal) : HandlerOutcome :=
  match pyGetItem event "body" with
  | .error e => ⟨errResp e, Option.none, Option.none⟩
  | .ok bodyRaw =>
  match pyJsonLoads bodyRaw with
  | .error e => ⟨errResp e, Option.none, Option.none⟩
  | .ok body =>
  match validate_payload body with
  | .error e => ⟨errResp e, Option.none, Option.none⟩
  | .ok _ =>
  match ctx.s3Fail with
  | some e => ⟨errResp e, Option.none, Option.none⟩
  | Option.none =>
  let archived := some (ctx.now ++ ".json", pyJsonDumps body, "application/json")
  match pyGet body "Reason" (.str "Other") with
  | .error e => ⟨errResp e, archived, Option.none⟩
  | .ok reason =>
  match alertPriorityGet reason with
  | .error e => ⟨errResp e, archived, Option.none⟩
  | .ok prio =>
  match pySetItem body "alert_priority" (.str prio) with
  | .error e => ⟨errResp e, archived, Option.none⟩
  | .ok body1 =>
  match pyGet body1 "How Long Delayed" (.str "") with
  | .error e => ⟨errResp e, archived, Option.none⟩
  | .ok delayStr =>
  match parse_delay delayStr with
  | .error e => ⟨errResp e, archived, Option.none⟩
  | .ok delayMin =>
  match pySetItem body1 "average_delay_minutes" (.int delayMin) with
  | .error e => ⟨errResp e, archived, Option.none⟩
  | .ok body2 =>
  match pyGetItem body2 "Route Number" with
  | .error e => ⟨errResp e, archived, Option.none⟩
  | .ok route =>
  match pyGet body2 "Occurred On" (.str ctx.now2) with
  | .error e => ⟨errResp e, archived, Option.none⟩
  | .ok occ =>
  match spreadInto [("RouteNumber", route), ("OccurredOn", occ)] body2 with
  | .error e => ⟨errResp e, archived, Option.none⟩
  | .ok item =>
  match ctx.dbFail with
  | some e => ⟨errResp e, archived, Option.none⟩
  | Option.none => ⟨okResp, archived, some item⟩

/-- Keys of an association list are pairwise distinct. -/
def NodupKeys (ps : List (String × PyVal)) : Prop :=
  (ps.map Prod.fst).Nodup

/-- A context in which both external store calls succeed. -/
def ctx0 : Ctx := ⟨"2024-01-01T00:00:00", "2024-01-01T00:00:01", Option.none, Option.none⟩

/-- The end-to-end input body of the spec, section 8. -/
def c2body : String :=
  "\x7b\"Busbreakdown ID\": 1, \"Route Number\": \"12\", \"Reason\": \"Flat Tire\", \"How Long Delayed\": \"10-20 min\"\x7d"

/-- Event wrapping `c2body`. -/
def c2event : PyVal := .dict [("body", .str c2body)]

/-- A valid body whose JSON text is not in `json.dumps` canonical form
(no space after the colons). -/
def c3body : String :=
  "\x7b\"Busbreakdown ID\":1,\"Route Number\":\"12\",\"Reason\":\"Other\"\x7d"

/-- Event wrapping `c3body`. -/
def c3event : PyVal := .dict [("body", .str c3body)]

/-- The parsed form of `c3body`. -/
def c3pairs : List (String × PyVal) :=
  [("Busbreakdown ID", .int 1), ("Route Number", .str "12"), ("Reason", .str "Other")]

/-- What the archive step actually writes for `c3body`:
`json.dumps(json.loads(c3body))`, with canonical separators. -/
def c3content : String :=
  "\x7b\"Busbreakdown ID\": 1, \"Route Number\": \"12\", \"Reason\": \"Other\"\x7d"

/-- A body missing two of the three required fields. -/
def c4body : String := "\x7b\"Route Number\": \"9\"\x7d"

/-- Event wrapping `c4body`. -/
def c4event : PyVal := .dict [("body", .str c4body)]

/-- The parsed form of `c4body`. -/
def c4pairs : List (String × PyVal) := [("Route Number", .str "9")]

/-- A valid body that already carries an `alert_priority` field. -/
def c9body : String :=
  "\x7b\"Busbreakdown ID\": 1, \"Route Number\": \"12\", \"Reason\": \"Other\", \"alert_priority\": \"custom\"\x7d"

/-- Event wrapping `c9body`. -/
def c9event : PyVal := .dict [("body", .str c9body)]

/-- The parsed form of `c9body`. -/
def c9pairs : List (String × PyVal) :=
  [("Busbreakdown ID", .int 1), ("Route Number", .str "12"), ("Reason", .str "Other"),
   ("alert_priority", .str "custom")]

/-- A valid body whose delay field is a (truthy) number, not a string. -/
def c10body : String :=
  "\x7b\"Busbreakdown ID\": 1, \"Route Number\": \"12\", \"Reason\": \"Other\", \"How Long Delayed\": 7\x7d"

/-- Event wrapping `c10body`. -/
def c10event : PyVal := .dict [("body", .str c10body)]

/-- The parsed form of `c10body`. -/
def c10pairs : List (String × PyVal) :=
  [("Busbreakdown ID", .int 1), ("Route Number", .str "12"), ("Reason", .str "Other"),
   ("How Long Delayed", .int 7)]

/-- The item persisted for `c2event` (computed by the model). -/
def c2item : List (String × PyVal) :=
  [("RouteNumber", .str "12"), ("OccurredOn", .str "2024-01-01T00:00:01"),
   ("Busbreakdown ID", .int 1), ("Route Number", .str "12"),
   ("Reason", .str "Flat Tire"), ("How Long Delayed", .str "10-20 min"),
   ("alert_priority", .str "high"), ("average_delay_minutes", .int 0)]

/-- The item persisted for `c9event` (computed by the model). -/
def c9item : List (String × PyVal) :=
  [("RouteNumber", .str "12"), ("OccurredOn", .str "2024-01-01T00:00:01"),
   ("Busbreakdown ID", .int 1), ("Route Number", .str "12"),
   ("Reason", .str "Other"), ("alert_priority", .str "low"),
   ("average_delay_minutes", .int 0)]

theorem alookup_eq_none_of_no_key {β : Type} {l : List (String × β)} {k : String}
    (h : ∀ p ∈ l, p.1 ≠ k) : alookup l k = Option.none := by
  induction l with
  | nil => rfl
  | cons p t ih =>
    simp only [alookup, h p (List.mem_cons_self p t), if_false]
    exact ih (fun q hq => h q (List.mem_cons_of_mem p hq))

theorem no_key_of_alookup_eq_none {β : Type} {l : List (String × β)} {k : String}
    (h : alookup l k = Option.none) : ∀ p ∈ l, p.1 ≠ k := by
  induction l with
  | nil => intro p hp; cases hp
  | cons q t ih =>
    intro p hp
    by_cases hq : q.1 = k
    · simp [alookup, hq] at h
    · simp only [alookup, hq, if_false] at h
      rcases List.mem_cons.mp hp with rfl | hp2
      · exact hq
      · exact ih h p hp2

theorem alookup_append_of_none {β : Type} {l : List (String × β)} (m : List (String × β))
    {k : String} (h : alookup l k = Option.none) :
    alookup (l ++ m) k = alookup m k := by
  induction l with
  | nil => rfl
  | cons p t ih =>
    by_cases hp : p.1 = k
    · simp [alookup, hp] at h
    · simp only [alookup, hp, if_false] at h
      simp only [List.cons_append, alookup, hp, if_false]
      exact ih h

theorem alookup_append_of_some {β : Type} {l : List (String × β)} (m : List (String × β))
    {k : String} {x : β} (h : alookup l k = some x) :
    alookup (l ++ m) k = some x := by
  induction l with
  | nil => simp [alookup] at h
  | cons p t ih =>
    by_cases hp : p.1 = k
    · simp only [alookup, hp, if_true] at h
      simp only [List.cons_append, alookup, hp, if_true]
      exact h
    · simp only [alookup, hp, if_false] at h
      simp only [List.cons_append, alookup, hp, if_false]
      exact ih h

theorem alookup_map_replace_self {l : List (String × PyVal)} {k : String} (v : PyVal)
    (h : (alookup l k).isSome = true) :
    alookup (l.map (fun p => if p.1 = k then (k, v) else p)) k = some v := by
  induction l with
  | nil => simp [alookup] at h
  | cons p t ih =>
    by_cases hp : p.1 = k
    · simp only [List.map_cons, if_pos hp]
      simp [alookup]
    · simp only [alookup, hp, if_false] at h
      simp only [List.map_cons, if_neg hp, alookup, hp, if_false]
      exact ih h

theorem alookup_map_replace_ne {l : List (String × PyVal)} {k k2 : String} (v : PyVal)
    (hne : k2 ≠ k) :
    alookup (l.map (fun p => if p.1 = k then (k, v) else p)) k2 = alookup l k2 := by
  induction l with
  | nil => rfl
  | cons p t ih =>
    by_cases hp : p.1 = k
    · have hp2 : ¬ p.1 = k2 := by rw [hp]; exact fun h => hne h.symm
      simp only [List.map_cons, if_pos hp, alookup]
      rw [if_neg (show ¬ k = k2 from fun h => hne h.symm), if_neg hp2]
      exact ih
    · simp only [List.map_cons, if_neg hp, alookup]
      by_cases hp2 : p.1 = k2
      · rw [if_pos hp2, if_pos hp2]
      · rw [if_neg hp2, if_neg hp2]; exact ih

theorem alookup_pairsInsert_self (l : List (String × PyVal)) (k : String) (v : PyVal) :
    alookup (pyPairsInsert l k v) k = some v := by
  unfold pyPairsInsert
  split
  · exact alookup_map_replace_self v (by assumption)
  · rename_i h
    have hnone : alookup l k = Option.none := by
      cases hl : alookup l k with
      | none => rfl
      | some x => rw [hl] at h; simp at h
    rw [alookup_append_of_none _ hnone]
    simp [alookup]

theorem alookup_pairsInsert_ne (l : List (String × PyVal)) {k k2 : String} (v : PyVal)
    (hne : k2 ≠ k) : alookup (pyPairsInsert l k v) k2 = alookup l k2 := by
  unfold pyPairsInsert
  split
  · exact alookup_map_replace_ne v hne
  · cases hl : alookup l k2 with
    | none =>
      rw [alookup_append_of_none _ hl]
      simp only [alookup]
      rw [if_neg (show ¬ k = k2 from fun h => hne h.symm)]
    | some x =>
      rw [alookup_append_of_some _ hl]

theorem mem_pairsInsert {l : List (String × PyVal)} {k : String} {v : PyVal} {p : String × PyVal}
    (h : p ∈ pyPairsInsert l k v) : p = (k, v) ∨ (p ∈ l ∧ p.1 ≠ k) := by
  unfold pyPairsInsert at h
  split at h
  · rcases List.mem_map.mp h with ⟨q, hq, hqe⟩
    by_cases hk : q.1 = k
    · rw [if_pos hk] at hqe; exact Or.inl hqe.symm
    · rw [if_neg hk] at hqe; subst hqe; exact Or.inr ⟨hq, hk⟩
  · rename_i hn
    rcases List.mem_append.mp h with hl | hr
    · refine Or.inr ⟨hl, ?_⟩
      exact no_key_of_alookup_eq_none (Option.not_isSome_iff_eq_none.mp hn) p hl
    · left
      simpa using hr

theorem keys_map_replace (l : List (String × PyVal)) (k : String) (v : PyVal) :
    (l.map (fun p => if p.1 = k then (k, v) else p)).map Prod.fst = l.map Prod.fst := by
  induction l with
  | nil => rfl
  | cons p t ih =>
    simp only [List.map_cons]
    by_cases hp : p.1 = k
    · rw [if_pos hp, ih]
      simp [hp]
    · rw [if_neg hp, ih]

theorem nodupKeys_pairsInsert {l : List (String × PyVal)} {k : String} {v : PyVal}
    (h : NodupKeys l) : NodupKeys (pyPairsInsert l k v) := by
  unfold pyPairsInsert
  split
  · unfold NodupKeys at h ⊢
    rw [keys_map_replace]
    exact h
  · rename_i hn
    unfold NodupKeys at h ⊢
    rw [List.map_append]
    refine List.Nodup.append h (List.nodup_singleton k) ?_
    intro a ha hb
    simp only [List.map_cons, List.map_nil, List.mem_singleton] at hb
    subst hb
    rcases List.mem_map.mp ha with ⟨p, hp, hpk⟩
    exact no_key_of_alookup_eq_none (Option.not_isSome_iff_eq_none.mp hn) p hp hpk

theorem foldl_dictStep_lookup_of_none {qs : List (String × PyVal)} {k : String}
    (hq : ∀ p ∈ qs, p.1 ≠ k) :
    ∀ init, alookup (qs.foldl dictStep init) k = alookup init k := by
  induction qs with
  | nil => intro _; rfl
  | cons p t ih =>
    intro init
    simp only [List.foldl_cons]
    rw [ih (fun q hq2 => hq q (List.mem_cons_of_mem p hq2))]
    exact alookup_pairsInsert_ne init p.2
      (fun he => hq p (List.mem_cons_self p t) he.symm)

theorem foldl_dictStep_lookup_write {qs : List (String × PyVal)} {k : String} {v : PyVal}
    (hall : ∀ p ∈ qs, p.1 = k → p.2 = v) (hex : ∃ p ∈ qs, p.1 = k) :
    ∀ init, alookup (qs.foldl dictStep init) k = some v := by
  induction qs with
  | nil => rcases hex with ⟨p, hp, _⟩; cases hp
  | cons p t ih =>
    intro init
    simp only [List.foldl_cons]
    by_cases hpk : p.1 = k
    · have hv : p.2 = v := hall p (List.mem_cons_self p t) hpk
      by_cases hterm : ∃ q ∈ t, q.1 = k
      · exact ih (fun q hq2 => hall q (List.mem_cons_of_mem p hq2)) hterm (dictStep init p)
      · have hnone : ∀ q ∈ t, q.1 ≠ k := fun q hq2 hk2 => hterm ⟨q, hq2, hk2⟩
        rw [foldl_dictStep_lookup_of_none hnone]
        show alookup (pyPairsInsert init p.1 p.2) k = some v
        rw [hpk, hv]
        exact alookup_pairsInsert_self init k v
    · have hex2 : ∃ q ∈ t, q.1 = k := by
        rcases hex with ⟨q, hq2, hk2⟩
        rcases List.mem_cons.mp hq2 with rfl | h2
        · exact absurd hk2 hpk
        · exact ⟨q, h2, hk2⟩
      exact ih (fun q hq2 => hall q (List.mem_cons_of_mem p hq2)) hex2 (dictStep init p)

theorem foldl_dictStep_domain {qs : List (String × PyVal)} {k : String} :
    ∀ init, (alookup (qs.foldl dictStep init) k).isSome = true →
      (alookup init k).isSome = true ∨ ∃ p ∈ qs, p.1 = k := by
  induction qs with
  | nil => intro _ h; exact Or.inl h
  | cons p t ih =>
    intro init h
    simp only [List.foldl_cons] at h
    rcases ih _ h with hinit | hex
    · by_cases hpk : p.1 = k
      · exact Or.inr ⟨p, List.mem_cons_self p t, hpk⟩
      · rw [show dictStep init p = pyPairsInsert init p.1 p.2 from rfl,
          alookup_pairsInsert_ne init p.2 (fun he => hpk he.symm)] at hinit
        exact Or.inl hinit
    · rcases hex with ⟨q, hq2, hk2⟩
      exact Or.inr ⟨q, List.mem_cons_of_mem p hq2, hk2⟩

theorem nodupKeys_foldl_dictStep {qs : List (String × PyVal)} :
    ∀ init, NodupKeys init → NodupKeys (qs.foldl dictStep init) := by
  induction qs with
  | nil => intro _ h; exact h
  | cons p t ih =>
    intro init h
    simp only [List.foldl_cons]
    exact ih (dictStep init p) (nodupKeys_pairsInsert h)

theorem nodupKeys_pyDictify (ms : List (String × PyVal)) : NodupKeys (pyDictify ms) :=
  nodupKeys_foldl_dictStep [] List.nodup_nil

theorem all_key_eq_of_nodup {qs : List (String × PyVal)} {k : String} {v : PyVal}
    (hn : NodupKeys qs) (hl : alookup qs k = some v) :
    ∀ p ∈ qs, p.1 = k → p.2 = v := by
  induction qs with
  | nil => intro p hp; cases hp
  | cons q t ih =>
    intro p hp hpk
    unfold NodupKeys at hn
    simp only [List.map_cons, List.nodup_cons] at hn
    by_cases hq : q.1 = k
    · simp only [alookup, hq, if_true, Option.some.injEq] at hl
      rcases List.mem_cons.mp hp with rfl | hpt
      · exact hl
      · exact absurd (List.mem_map.mpr ⟨p, hpt, hpk.trans hq.symm⟩) hn.1
    · simp only [alookup, hq, if_false] at hl
      rcases List.mem_cons.mp hp with rfl | hpt
      · exact absurd hpk hq
      · exact ih hn.2 hl p hpt hpk

theorem exists_key_of_alookup_some {qs : List (String × PyVal)} {k : String} {v : PyVal}
    (h : alookup qs k = some v) : ∃ p ∈ qs, p.1 = k := by
  induction qs with
  | nil => simp [alookup] at h
  | cons q t ih =>
    by_cases hq : q.1 = k
    · exact ⟨q, List.mem_cons_self q t, hq⟩
    · simp only [alookup, hq, if_false] at h
      rcases ih h with ⟨p, hp, hpk⟩
      exact ⟨p, List.mem_cons_of_mem q hp, hpk⟩

theorem dropWhile_not_ws_all {l : List Char} (h : ∀ c ∈ l, isPyWs c = false) :
    l.dropWhile isPyWs = l := by
  cases l with
  | nil => rfl
  | cons a t => simp [List.dropWhile_cons, h a (List.mem_cons_self a t)]

theorem pyIntOfString_dGroup (k : Nat) : pyIntOfString (dGroup k) = Option.none := by
  have hall : ∀ c ∈ bslash :: List.replicate k 'd', isPyWs c = false := by
    intro c hc
    rcases List.mem_cons.mp hc with rfl | h2
    · decide
    · rw [List.eq_of_mem_replicate h2]; decide
  have hdata : (dGroup k).data = bslash :: List.replicate k 'd' := rfl
  have h1 : (bslash :: List.replicate k 'd').dropWhile isPyWs
      = bslash :: List.replicate k 'd' := dropWhile_not_ws_all hall
  have h2 : ((bslash :: List.replicate k 'd').reverse).dropWhile isPyWs
      = (bslash :: List.replicate k 'd').reverse :=
    dropWhile_not_ws_all (fun c hc => hall c (List.mem_reverse.mp hc))
  have hstrip : pyStripChars (dGroup k).data = bslash :: List.replicate k 'd' := by
    unfold pyStripChars
    rw [hdata, h1, h2, List.reverse_reverse]
  have hdig : digitsToNat (bslash :: List.replicate k 'd') = Option.none := by
    unfold digitsToNat
    rw [if_neg (by simp)]
    rw [if_neg (by simp [List.all_cons]; intro hc; exact absurd hc (by decide))]
  unfold pyIntOfString
  rw [hstrip]
  simp only [pyIntOfChars]
  rw [if_neg (show ¬ bslash = Char.ofNat 45 by decide),
    if_neg (show ¬ bslash = Char.ofNat 43 by decide), hdig]
  rfl

theorem matchSingle_some {cs : List Char} {g : String} (h : matchSingle cs = some g) :
    ∃ a, g = dGroup a := by
  unfold matchSingle at h
  repeat' split at h
  all_goals (try cases h)
  exact ⟨_, rfl⟩

theorem matchRange_some {cs : List Char} {g1 g2 : String}
    (h : matchRange cs = some (g1, g2)) : (∃ a, g1 = dGroup a) ∧ ∃ b, g2 = dGroup b := by
  unfold matchRange at h
  repeat' split at h
  all_goals (try cases h)
  exact ⟨⟨_, rfl⟩, ⟨_, rfl⟩⟩

theorem parse_delay_ok_val {v : PyVal} {n : Int} (h : parse_delay v = .ok n) :
    n = 0 ∨ n = 60 := by
  unfold parse_delay at h
  split at h
  · exact Or.inl (Except.ok.inj h).symm
  · split at h
    · rename_i s
      split at h
      · exact Or.inr (Except.ok.inj h).symm
      · split at h
        · rename_i g1 g2 heqR
          rcases matchRange_some heqR with ⟨⟨a, rfl⟩, ⟨b, rfl⟩⟩
          rw [pyIntOfString_dGroup a, pyIntOfString_dGroup b] at h
          simp at h
        · rename_i g heqR heqS
          rcases matchSingle_some heqS with ⟨a, rfl⟩
          rw [pyIntOfString_dGroup a] at h
          simp at h
        · exact Or.inl (Except.ok.inj h).symm
    · simp at h

theorem parse_delay_ok_nonneg {v : PyVal} {n : Int} (h : parse_delay v = .ok n) :
    0 ≤ n := by
  rcases parse_delay_ok_val h with rfl | rfl <;> decide

theorem priorityOfStr_cases (s : String) :
    priorityOfStr s = "high" ∨ priorityOfStr s = "medium" ∨ priorityOfStr s = "low" := by
  unfold priorityOfStr ALERT_PRIORITY_MAP
  simp only [alookup]
  repeat' split
  all_goals simp

theorem alertPriorityGet_ok {r : PyVal} {p : String} (h : alertPriorityGet r = .ok p) :
    p = "high" ∨ p = "medium" ∨ p = "low" := by
  unfold alertPriorityGet at h
  split at h
  · rename_i s
    rw [← Except.ok.inj h]
    exact priorityOfStr_cases s
  · cases h
  · cases h
  · right; right; exact (Except.ok.inj h).symm

theorem pySetItem_ok {v w : PyVal} {k : String} {x : PyVal} (h : pySetItem v k x = .ok w) :
    ∃ ps, v = .dict ps ∧ w = .dict (pyPairsInsert ps k x) := by
  cases v <;> simp [pySetItem] at h
  case dict ps => exact ⟨ps, rfl, h.symm⟩

theorem spreadInto_ok {init : List (String × PyVal)} {v : PyVal}
    {item : List (String × PyVal)} (h : spreadInto init v = .ok item) :
    ∃ ps, v = .dict ps ∧ item = ps.foldl dictStep init := by
  cases v <;> simp [spreadInto] at h
  case dict ps => exact ⟨ps, rfl, h.symm⟩

theorem missingFields_dict (fs : List String) (ps : List (String × PyVal)) :
    missingFields fs (.dict ps) = .ok (fs.filter (fun f => (alookup ps f).isNone)) := by
  induction fs with
  | nil => rfl
  | cons f t ih =>
    cases hf : alookup ps f with
    | some x =>
      simp only [missingFields, pyIn, hf, Option.isSome_some, List.filter_cons,
        Option.isNone_some, Bool.false_eq_true, if_false]
      exact ih
    | none =>
      simp only [missingFields, pyIn, hf, Option.isSome_none, List.filter_cons,
        Option.isNone_none, if_true]
      rw [ih]

theorem validate_payload_dict (ps : List (String × PyVal)) :
    validate_payload (.dict ps)
      = (if (required_fields.filter (fun f => (alookup ps f).isNone)).isEmpty
          then .ok ()
          else .error ("Missing required fields: "
            ++ String.intercalate ", "
              (required_fields.filter (fun f => (alookup ps f).isNone)))) := by
  unfold validate_payload
  rw [missingFields_dict]

theorem parseValue_dict {fuel : Nat} {cs r : List Char} {d : List (String × PyVal)}
    (h : parseValue fuel cs = some (.dict d, r)) :
    d = [] ∨ ∃ ms, d = pyDictify ms := by
  cases fuel with
  | zero => cases h
  | succ n =>
    unfold parseValue at h
    repeat' split at h
    all_goals (try cases h)
    all_goals first
      | exact Or.inl rfl
      | exact Or.inr ⟨_, rfl⟩

theorem jsonLoadsStr_dict_nodup {s : String} {d : List (String × PyVal)}
    (h : jsonLoadsStr s = .ok (.dict d)) : NodupKeys d := by
  unfold jsonLoadsStr at h
  split at h
  · rename_i v rest heq
    split at h
    · have hv := Except.ok.inj h
      rw [hv] at heq
      rcases parseValue_dict heq with rfl | ⟨ms, rfl⟩
      · exact List.nodup_nil
      · exact nodupKeys_pyDictify ms
    · cases h
  · cases h

/-- C1: the spec describes digit parsing ("15-30 minutes" averaging to 22,
"45 minutes" to 45), but the raw-string regexes `r"(\\d+)..."` match a
literal backslash followed by letter `d`s, never digits, so the code
returns 0 for both digit examples.  The remaining C1 examples agree. -/
theorem c1_parse_delay_regex_slip_eval :
    parse_delay (.str "15-30 minutes") = .ok 0
    ∧ parse_delay (.str "45 minutes") = .ok 0
    ∧ parse_delay (.str "") = .ok 0
    ∧ parse_delay (.str "about") = .ok 0
    ∧ (0 : Int) ≠ 22 ∧ (0 : Int) ≠ 45 :=
  ⟨rfl, rfl, rfl, rfl, by decide, by decide⟩

/-- C2: on the end-to-end input of the spec the handler does return 200 and
persist `alert_priority = "high"`, but `average_delay_minutes` is 0, not
the claimed 15, because the delay regex never matches digits. -/
theorem c2_end_to_end_delay_is_zero :
    (handler ctx0 c2event).response.statusCode = 200
    ∧ ((handler ctx0 c2event).persisted.map (fun ps => alookup ps "alert_priority"))
        = some (some (.str "high"))
    ∧ ((handler ctx0 c2event).persisted.map (fun ps => alookup ps "average_delay_minutes"))
        = some (some (.int 0))
    ∧ (0 : Int) ≠ 15 :=
  ⟨rfl, rfl, rfl, by decide⟩

/-- C3 (counterexample): a successful invocation whose archived content is
`json.dumps` of the parsed body and differs byte-wise from the original
input body (which is valid JSON but not in canonical dumps format). -/
theorem c3_archive_not_byte_identical :
    (handler ctx0 c3event).response.statusCode = 200
    ∧ (handler ctx0 c3event).archived
        = some ("2024-01-01T00:00:00.json", c3content, "application/json")
    ∧ c3content ≠ c3body :=
  ⟨rfl, rfl, by decide⟩

/-- C5: any non-empty text whose lower-cased, stripped form contains
"hour" makes parse_delay return exactly 60, whatever else the text says. -/
theorem c5_hour_always_60 (s : String) (h1 : s ≠ "")
    (h2 : pyContains (pyStrip (pyLower s)) "hour" = true) :
    parse_delay (.str s) = .ok 60 := by
  simp [parse_delay, pyTruthy, h1, h2]

/-- C5 witness at "2 hours" (also the spec example `parse_delay("2 hours") = 60`). -/
theorem c5_witness : parse_delay (.str "2 hours") = .ok 60 :=
  c5_hour_always_60 "2 hours" (by decide) (by decide)

/-- C6: the priority lookup sends the four mechanical reasons to "high",
the two traffic/weather reasons to "medium", the three listed reasons to
"low", and every string outside the enumeration to "low". -/
theorem c6_priority_lookup :
    priorityOfStr "Mechanical Problem" = "high"
    ∧ priorityOfStr "Flat Tire" = "high"
    ∧ priorityOfStr wontStart = "high"
    ∧ priorityOfStr "Accident" = "high"
    ∧ priorityOfStr "Heavy Traffic" = "medium"
    ∧ priorityOfStr "Weather Conditions" = "medium"
    ∧ priorityOfStr "Delayed by School" = "low"
    ∧ priorityOfStr "Other" = "low"
    ∧ priorityOfStr "Problem Run" = "low"
    ∧ priorityOfStr "Unknown Reason" = "low"
    ∧ ∀ r, r ∉ ["Mechanical Problem", "Flat Tire", wontStart, "Accident",
        "Heavy Traffic", "Weather Conditions", "Delayed by School", "Other",
        "Problem Run"] → priorityOfStr r = "low" := by
  refine ⟨rfl, rfl, rfl, rfl, rfl, rfl, rfl, rfl, rfl, by decide, ?_⟩
  intro r hr
  simp only [List.mem_cons, List.not_mem_nil, or_false, not_or] at hr
  obtain ⟨n1, n2, n3, n4, n5, n6, n7, n8, n9⟩ := hr
  unfold priorityOfStr ALERT_PRIORITY_MAP
  simp only [alookup]
  rw [if_neg (fun he => n1 he.symm), if_neg (fun he => n2 he.symm),
    if_neg (fun he => n3 he.symm), if_neg (fun he => n4 he.symm),
    if_neg (fun he => n5 he.symm), if_neg (fun he => n6 he.symm),
    if_neg (fun he => n7 he.symm), if_neg (fun he => n8 he.symm),
    if_neg (fun he => n9 he.symm)]
  rfl

/-- C6 witness: the default branch applied at the unrecognized reason
"Unknown Reason". -/
theorem c6_witness : priorityOfStr "Unknown Reason" = "low" :=
  c6_priority_lookup.2.2.2.2.2.2.2.2.2.2 "Unknown Reason" (by decide)

/-- C7: every invocation returns either status 200 with the success
message or status 400 with a body carrying some error text; no other
response shape exists, whichever step fails (validation and storage
failures are indistinguishable in shape). -/
theorem c7_response_dichotomy (ctx : Ctx) (event : PyVal) :
    ((handler ctx event).response.statusCode = 200
      ∧ (handler ctx event).response.body
          = pyJsonDumps (.dict [("message", .str "Processed successfully")]))
    ∨ ((handler ctx event).response.statusCode = 400
      ∧ ∃ e, (handler ctx event).response.body
          = pyJsonDumps (.dict [("error", .str e)])) := by
  unfold handler
  repeat' split
  all_goals first
    | exact Or.inl ⟨rfl, rfl⟩
    | exact Or.inr ⟨rfl, ⟨_, rfl⟩⟩

/-- C3 (amended): for every invocation whose archive step runs, the
archived content is `json.dumps` of the PARSED body (semantically the
same mapping, but byte-identical to the input only when the input is
already in canonical dumps form), under the timestamp key and JSON
content type. -/
theorem c3_archive_content_is_dumps (ctx : Ctx) (event : PyVal) (s : String) (body : PyVal)
    (h1 : pyGetItem event "body" = .ok (.str s))
    (h2 : jsonLoadsStr s = .ok body) :
    ∀ k c t, (handler ctx event).archived = some (k, c, t) →
      c = pyJsonDumps body ∧ k = ctx.now ++ ".json" ∧ t = "application/json" := by
  intro k c t h3
  unfold handler at h3
  simp only [h1] at h3
  simp only [show pyJsonLoads (PyVal.str s) = jsonLoadsStr s from rfl, h2] at h3
  repeat' split at h3
  all_goals (try cases h3)
  all_goals exact ⟨rfl, rfl, rfl⟩

/-- C3 (amended) witness, at a concrete valid event: the archived content
is the dumps of the parsed body. -/
theorem c3_amended_witness :
    c3content = pyJsonDumps (.dict c3pairs)
    ∧ "2024-01-01T00:00:00.json" = ctx0.now ++ ".json"
    ∧ "application/json" = "application/json" :=
  c3_archive_content_is_dumps ctx0 c3event c3body (.dict c3pairs) rfl rfl
    "2024-01-01T00:00:00.json" c3content "application/json" rfl

/-- C4: a parsed dict body missing required fields makes the handler
return the 400 response whose error text lists exactly the missing
required field names, in order; and validation succeeds precisely when
every required field is present. -/
theorem c4_validation_lists_all_missing
    (ctx : Ctx) (event : PyVal) (s : String) (ps : List (String × PyVal))
    (h1 : pyGetItem event "body" = .ok (.str s))
    (h2 : jsonLoadsStr s = .ok (.dict ps))
    (h3 : required_fields.filter (fun f => (alookup ps f).isNone) ≠ []) :
    handler ctx event
      = ⟨errResp ("Missing required fields: "
          ++ String.intercalate ", "
            (required_fields.filter (fun f => (alookup ps f).isNone))),
        Option.none, Option.none⟩
    ∧ (validate_payload (.dict ps) = .ok ()
        ↔ ∀ f ∈ required_fields, (alookup ps f).isSome = true) := by
  constructor
  · unfold handler
    simp only [h1]
    simp only [show pyJsonLoads (PyVal.str s) = jsonLoadsStr s from rfl, h2]
    rw [validate_payload_dict]
    rw [if_neg (fun hemp => h3 (List.isEmpty_iff.mp hemp))]
  · rw [validate_payload_dict]
    constructor
    · intro h
      split at h
      · rename_i hemp
        have hnil : required_fields.filter (fun f => (alookup ps f).isNone) = [] :=
          List.isEmpty_iff.mp hemp
        intro f hf
        cases hx : alookup ps f with
        | some x => rfl
        | none =>
          exfalso
          have := List.filter_eq_nil_iff.mp hnil f hf
          rw [hx] at this
          exact this rfl
      · cases h
    · intro hall
      rw [if_pos]
      apply List.isEmpty_iff.mpr
      apply List.filter_eq_nil_iff.mpr
      intro f hf hpred
      have := hall f hf
      cases hx : alookup ps f with
      | some x => rw [hx] at hpred; cases hpred
      | none => rw [hx] at this; cases this

/-- C4 witness at a body missing two required fields: the 400 response
names both, and the validation equivalence instantiates. -/
theorem c4_witness :
    handler ctx0 c4event
      = ⟨errResp ("Missing required fields: "
          ++ String.intercalate ", "
            (required_fields.filter (fun f => (alookup c4pairs f).isNone))),
        Option.none, Option.none⟩
    ∧ (validate_payload (.dict c4pairs) = .ok ()
        ↔ ∀ f ∈ required_fields, (alookup c4pairs f).isSome = true) :=
  c4_validation_lists_all_missing ctx0 c4event c4body c4pairs rfl rfl (by decide)

/-- C10: a valid body whose "How Long Delayed" value is a truthy
non-string makes `parse_delay` raise at `.lower()` (or, for unhashable
reason values, the priority lookup raise first); either way the handler
answers 400, persists nothing, and has already archived the raw payload. -/
theorem c10_nonstring_delay_raises
    (ctx : Ctx) (event : PyVal) (s : String) (ps : List (String × PyVal)) (v : PyVal)
    (hs3 : ctx.s3Fail = Option.none)
    (h1 : pyGetItem event "body" = .ok (.str s))
    (h2 : jsonLoadsStr s = .ok (.dict ps))
    (h3 : validate_payload (.dict ps) = .ok ())
    (h4 : alookup ps "How Long Delayed" = some v)
    (h5 : ∀ w, v ≠ .str w)
    (h6 : pyTruthy v = true) :
    (handler ctx event).response.statusCode = 400
    ∧ (handler ctx event).persisted = Option.none
    ∧ (handler ctx event).archived
        = some (ctx.now ++ ".json", pyJsonDumps (.dict ps), "application/json") := by
  unfold handler
  simp only [h1]
  simp only [show pyJsonLoads (PyVal.str s) = jsonLoadsStr s from rfl, h2]
  simp only [h3, hs3]
  simp only [pyGet]
  split
  · exact ⟨rfl, rfl, rfl⟩
  · rename_i prio hprio
    simp only [pySetItem]
    rw [alookup_pairsInsert_ne ps (PyVal.str prio)
      (show "How Long Delayed" ≠ "alert_priority" by decide), h4]
    simp only [Option.getD]
    cases v with
    | str w => exact absurd rfl (h5 w)
    | none => simp [pyTruthy] at h6
    | bool b =>
      cases b
      · simp [pyTruthy] at h6
      · simp only [parse_delay, pyTruthy]
        exact ⟨rfl, rfl, rfl⟩
    | int n =>
      simp only [parse_delay, h6]
      exact ⟨rfl, rfl, rfl⟩
    | list xs =>
      simp only [parse_delay, h6]
      exact ⟨rfl, rfl, rfl⟩
    | dict qs =>
      simp only [parse_delay, h6]
      exact ⟨rfl, rfl, rfl⟩

/-- C10 witness at a body whose delay field is the number 7. -/
theorem c10_witness :
    (handler ctx0 c10event).response.statusCode = 400
    ∧ (handler ctx0 c10event).persisted = Option.none
    ∧ (handler ctx0 c10event).archived
        = some (ctx0.now ++ ".json", pyJsonDumps (.dict c10pairs), "application/json") :=
  c10_nonstring_delay_raises ctx0 c10event c10body c10pairs (.int 7) rfl rfl rfl rfl rfl
    (fun w h => by cases h) (by decide)

theorem alookup_isSome_of_mem_key {l : List (String × PyVal)} {p : String × PyVal}
    (hp : p ∈ l) : (alookup l p.1).isSome = true := by
  induction l with
  | nil => cases hp
  | cons q t ih =>
    by_cases hq : q.1 = p.1
    · simp [alookup, hq]
    · simp only [alookup, hq, if_false]
      rcases List.mem_cons.mp hp with rfl | hpt
      · exact absurd rfl hq
      · exact ih hpt

/-- C8: whenever the persist step runs, the stored item carries an
`alert_priority` that is one of high, medium, low, and an integer
`average_delay_minutes` that is non-negative. -/
theorem c8_persisted_invariant (ctx : Ctx) (event : PyVal)
    (item : List (String × PyVal)) (h : (handler ctx event).persisted = some item) :
    (∃ p, alookup item "alert_priority" = some (.str p)
      ∧ (p = "high" ∨ p = "medium" ∨ p = "low"))
    ∧ ∃ n, alookup item "average_delay_minutes" = some (.int n) ∧ 0 ≤ n := by
  unfold handler at h
  repeat' split at h
  all_goals (try cases h)
  rename_i x13 bodyRaw hbodyRaw x12 body hloads x11 u hval x10 hs3 x9 reason hreason
    x8 prio hprio x7 body1 hset1 x6 delayv hdelayv x5 delayMin hpd x4 body2 hset2
    x3 route hroute x2 occ hocc x1 x0 hdb hspread
  obtain ⟨ps1, rfl, rfl⟩ := pySetItem_ok hset1
  obtain ⟨ps2, hEq2, rfl⟩ := pySetItem_ok hset2
  cases hEq2
  obtain ⟨ps3, hEq3, hitem⟩ := spreadInto_ok hspread
  cases hEq3
  rw [hitem]
  constructor
  · have hall : ∀ p ∈ pyPairsInsert (pyPairsInsert ps1 "alert_priority" (.str prio))
        "average_delay_minutes" (.int delayMin),
        p.1 = "alert_priority" → p.2 = .str prio := by
      intro p hp hpk
      rcases mem_pairsInsert hp with rfl | ⟨hpQ, hpne⟩
      · exact absurd (show ("average_delay_minutes" : String) = "alert_priority" from hpk)
          (by decide)
      · rcases mem_pairsInsert hpQ with rfl | ⟨hpP, hpne2⟩
        · rfl
        · exact absurd hpk hpne2
    have hsome : alookup (pyPairsInsert (pyPairsInsert ps1 "alert_priority" (.str prio))
        "average_delay_minutes" (.int delayMin)) "alert_priority" = some (.str prio) := by
      rw [alookup_pairsInsert_ne _ _
        (show ("alert_priority" : String) ≠ "average_delay_minutes" by decide)]
      exact alookup_pairsInsert_self _ _ _
    exact ⟨prio, foldl_dictStep_lookup_write hall (exists_key_of_alookup_some hsome) _,
      alertPriorityGet_ok hprio⟩
  · have hall : ∀ p ∈ pyPairsInsert (pyPairsInsert ps1 "alert_priority" (.str prio))
        "average_delay_minutes" (.int delayMin),
        p.1 = "average_delay_minutes" → p.2 = .int delayMin := by
      intro p hp hpk
      rcases mem_pairsInsert hp with rfl | ⟨hpQ, hpne⟩
      · rfl
      · exact absurd hpk hpne
    have hsome : alookup (pyPairsInsert (pyPairsInsert ps1 "alert_priority" (.str prio))
        "average_delay_minutes" (.int delayMin)) "average_delay_minutes"
        = some (.int delayMin) := alookup_pairsInsert_self _ _ _
    exact ⟨delayMin, foldl_dictStep_lookup_write hall (exists_key_of_alookup_some hsome) _,
      parse_delay_ok_nonneg hpd⟩

/-- C8 witness: the invariant instantiated at the persisted item of the
end-to-end example event. -/
theorem c8_witness :
    (∃ p, alookup c2item "alert_priority" = some (.str p)
      ∧ (p = "high" ∨ p = "medium" ∨ p = "low"))
    ∧ ∃ n, alookup c2item "average_delay_minutes" = some (.int n) ∧ 0 ≤ n :=
  c8_persisted_invariant ctx0 c2event c2item rfl

/-- C9 (counterexample): an input whose body already carries
`"alert_priority": "custom"` succeeds, yet the persisted item holds the
computed value "low" instead of the input pair — the input pair does
not appear unchanged. -/
theorem c9_extra_field_overwritten :
    jsonLoadsStr c9body = .ok (.dict c9pairs)
    ∧ alookup c9pairs "alert_priority" = some (.str "custom")
    ∧ (handler ctx0 c9event).response.statusCode = 200
    ∧ ((handler ctx0 c9event).persisted.map (fun l => alookup l "alert_priority"))
        = some (some (.str "low"))
    ∧ PyVal.str "custom" ≠ PyVal.str "low" :=
  ⟨rfl, rfl, rfl, rfl, fun hc => by
    injection hc with hc2
    exact absurd hc2 (by decide)⟩

/-- C9 (amended): on success every input pair except those under the two
computed keys `alert_priority` and `average_delay_minutes` (which are
overwritten with the computed values) appears unchanged in the persisted
item, and every key of the item comes from the input or from the four
added names RouteNumber, OccurredOn, alert_priority,
average_delay_minutes. -/
theorem c9_passthrough_amended (ctx : Ctx) (event : PyVal) (s : String)
    (ps item : List (String × PyVal))
    (h1 : pyGetItem event "body" = .ok (.str s))
    (h2 : jsonLoadsStr s = .ok (.dict ps))
    (h : (handler ctx event).persisted = some item) :
    (∀ k v, k ≠ "alert_priority" → k ≠ "average_delay_minutes" →
        alookup ps k = some v → alookup item k = some v)
    ∧ (∀ k, (alookup item k).isSome = true →
        (alookup ps k).isSome = true
        ∨ k ∈ ["RouteNumber", "OccurredOn", "alert_priority", "average_delay_minutes"]) := by
  have hnodup : NodupKeys ps := jsonLoadsStr_dict_nodup h2
  unfold handler at h
  repeat' split at h
  all_goals (try cases h)
  rename_i x13 bodyRaw hbodyRaw x12 body hloads x11 u hval x10 hs3 x9 reason hreason
    x8 prio hprio x7 body1 hset1 x6 delayv hdelayv x5 delayMin hpd x4 body2 hset2
    x3 route hroute x2 occ hocc x1 x0 hdb hspread
  rw [h1] at hbodyRaw
  cases Except.ok.inj hbodyRaw
  have hloads2 : jsonLoadsStr s = Except.ok body := hloads
  rw [h2] at hloads2
  cases Except.ok.inj hloads2
  obtain ⟨ps1, hps1, rfl⟩ := pySetItem_ok hset1
  cases (show ps = ps1 from PyVal.dict.inj hps1)
  obtain ⟨ps2, hEq2, rfl⟩ := pySetItem_ok hset2
  cases hEq2
  obtain ⟨ps3, hEq3, hitem⟩ := spreadInto_ok hspread
  cases hEq3
  have hq_nodup : NodupKeys (pyPairsInsert (pyPairsInsert ps "alert_priority" (.str prio))
      "average_delay_minutes" (.int delayMin)) :=
    nodupKeys_pairsInsert (nodupKeys_pairsInsert hnodup)
  constructor
  · intro k v hk1 hk2 hkv
    have hq : alookup (pyPairsInsert (pyPairsInsert ps "alert_priority" (.str prio))
        "average_delay_minutes" (.int delayMin)) k = some v := by
      rw [alookup_pairsInsert_ne _ _ hk2, alookup_pairsInsert_ne _ _ hk1]
      exact hkv
    rw [hitem]
    exact foldl_dictStep_lookup_write (all_key_eq_of_nodup hq_nodup hq)
      (exists_key_of_alookup_some hq) _
  · intro k hk
    rw [hitem] at hk
    rcases foldl_dictStep_domain _ hk with hinit | ⟨p, hp, hpk⟩
    · simp only [alookup] at hinit
      by_cases hR : ("RouteNumber" : String) = k
      · right; rw [← hR]; simp
      · rw [if_neg hR] at hinit
        by_cases hO : ("OccurredOn" : String) = k
        · right; rw [← hO]; simp
        · rw [if_neg hO] at hinit
          simp at hinit
    · rcases mem_pairsInsert hp with rfl | ⟨hpQ, hne1⟩
      · right; rw [← hpk]; simp
      · rcases mem_pairsInsert hpQ with rfl | ⟨hpP, hne2⟩
        · right; rw [← hpk]; simp
        · left
          rw [← hpk]
          exact alookup_isSome_of_mem_key hpP

/-- C9 (amended) witness: instantiated at the event carrying an extra
input field; pass-through and key provenance hold for its item. -/
theorem c9_amended_witness :
    (∀ k v, k ≠ "alert_priority" → k ≠ "average_delay_minutes" →
        alookup c9pairs k = some v → alookup c9item k = some v)
    ∧ (∀ k, (alookup c9item k).isSome = true →
        (alookup c9pairs k).isSome = true
        ∨ k ∈ ["RouteNumber", "OccurredOn", "alert_priority", "average_delay_minutes"]) :=
  c9_passthrough_amended ctx0 c9event c9body c9pairs c9item rfl rfl rfl
